import Mathlib

/-!
Formal model of the OAuth 2.1 subsystem of the DeploymentProject MCP server.

The Go sources embedded here (shallowly, as pure Lean functions with explicit
state passing) are:
  * `auth/pkce.go`        — PKCE challenge generation, the authorization
                            endpoint handler, the in-memory `StateStore`;
  * `auth/token_endpoint.go` — the token endpoint handler and `verifyPKCE`;
  * `auth/storage.go`     — the in-memory client storage;
  * `auth/registration.go` — dynamic client registration;
  * `auth/github.go`      — upstream-scope to MCP-scope mapping;
  * the in-memory `TokenStorage` and the GitHub callback handler.

Conventions used throughout:
  * Go `map[string]*T` values are modeled as association lists
    `List (String × T)`; insertion replaces every binding of the key and
    `delete` removes every binding, matching map semantics.
  * `time.Time` values are modeled as natural-number instants (the unit is
    irrelevant; the 10-minute TTL constant is expressed in seconds).
    Every operation that calls `time.Now()` in Go receives the current
    instant `now` as an explicit argument.
  * Randomly generated strings (`generateRandomString`, `GenerateClientID`,
    `GenerateClientSecret`) are passed as explicit arguments; entropy-source
    failure, which Go surfaces as an error from `crypto/rand`, is modeled by
    an `Option` argument where a claim depends on that failure path.
  * Network calls (the GitHub code exchange) are modeled by passing the
    outcome of the call as an explicit `Except` argument.
-/

namespace OAuthServer

/-! ### Association-list maps

Go `map` operations on the assoc-list representation.  `mapInsert` models
`m[k] = v` (the new binding shadows and removes any old one) and `mapErase`
models `delete(m, k)`. -/

def mapLookup {κ α : Type} [DecidableEq κ] : List (κ × α) → κ → Option α
  | [], _ => none
  | (k', v) :: rest, k => if k' = k then some v else mapLookup rest k

def mapErase {κ α : Type} [DecidableEq κ] : List (κ × α) → κ → List (κ × α)
  | [], _ => []
  | (k', v) :: rest, k => if k' = k then mapErase rest k else (k', v) :: mapErase rest k

def mapInsert {κ α : Type} [DecidableEq κ] (k : κ) (v : α) (m : List (κ × α)) :
    List (κ × α) :=
  (k, v) :: mapErase m k

/-! ### SHA-256 (FIPS 180-4)

The Go code hashes with `crypto/sha256.Sum256`.  The function is embedded
here in full over byte lists, with 32-bit words represented as naturals
reduced modulo `2 ^ 32`. -/

def w32 (n : Nat) : Nat := n % 4294967296

def rotr32 (n x : Nat) : Nat := w32 ((x >>> n) ||| (x <<< (32 - n)))

def bsig0 (x : Nat) : Nat := rotr32 2 x ^^^ rotr32 13 x ^^^ rotr32 22 x

def bsig1 (x : Nat) : Nat := rotr32 6 x ^^^ rotr32 11 x ^^^ rotr32 25 x

def ssig0 (x : Nat) : Nat := rotr32 7 x ^^^ rotr32 18 x ^^^ (x >>> 3)

def ssig1 (x : Nat) : Nat := rotr32 17 x ^^^ rotr32 19 x ^^^ (x >>> 10)

def chFn (x y z : Nat) : Nat := (x &&& y) ^^^ ((x ^^^ 4294967295) &&& z)

def majFn (x y z : Nat) : Nat := (x &&& y) ^^^ (x &&& z) ^^^ (y &&& z)

def sha256K : List Nat :=
  [1116352408, 1899447441, 3049323471, 3921009573, 961987163, 1508970993,
   2453635748, 2870763221, 3624381080, 310598401, 607225278, 1426881987,
   1925078388, 2162078206, 2614888103, 3248222580, 3835390401, 4022224774,
   264347078, 604807628, 770255983, 1249150122, 1555081692, 1996064986,
   2554220882, 2821834349, 2952996808, 3210313671, 3336571891, 3584528711,
   113926993, 338241895, 666307205, 773529912, 1294757372, 1396182291,
   1695183700, 1986661051, 2177026350, 2456956037, 2730485921, 2820302411,
   3259730800, 3345764771, 3516065817, 3600352804, 4094571909, 275423344,
   430227734, 506948616, 659060556, 883997877, 958139571, 1322822218,
   1537002063, 1747873779, 1955562222, 2024104815, 2227730452, 2361852424,
   2428436474, 2756734187, 3204031479, 3329325298]

/-- Working state of the SHA-256 compression function. -/
structure Sha256State where
  a : Nat
  b : Nat
  c : Nat
  d : Nat
  e : Nat
  f : Nat
  g : Nat
  h : Nat
deriving DecidableEq

def sha256Init : Sha256State :=
  ⟨1779033703, 3144134277, 1013904242, 2773480762,
   1359893119, 2600822924, 528734635, 1541459225⟩

def sha256Round (st : Sha256State) (k w : Nat) : Sha256State :=
  let t1 := w32 (st.h + bsig1 st.e + chFn st.e st.f st.g + k + w)
  let t2 := w32 (bsig0 st.a + majFn st.a st.b st.c)
  ⟨w32 (t1 + t2), st.a, st.b, st.c, w32 (st.d + t1), st.e, st.f, st.g⟩

/-- Join big-endian groups of four bytes into 32-bit words. -/
def bytesToWords : List Nat → List Nat
  | b0 :: b1 :: b2 :: b3 :: rest =>
      ((b0 <<< 24) + (b1 <<< 16) + (b2 <<< 8) + b3) :: bytesToWords rest
  | _ => []

/-- Append the next word of the SHA-256 message schedule. -/
def scheduleStep (ws : List Nat) : List Nat :=
  let i := ws.length
  ws ++ [w32 (ws.getD (i - 16) 0 + ssig0 (ws.getD (i - 15) 0) +
              ws.getD (i - 7) 0 + ssig1 (ws.getD (i - 2) 0))]

/-- Extend the 16 block words to the full 64-entry message schedule. -/
def extendSchedule (ws : List Nat) : List Nat :=
  (List.range 48).foldl (fun acc _ => scheduleStep acc) ws

def processBlock (st0 : Sha256State) (block : List Nat) : Sha256State :=
  let ws := extendSchedule (bytesToWords block)
  let st := (sha256K.zip ws).foldl (fun st kw => sha256Round st kw.1 kw.2) st0
  ⟨w32 (st0.a + st.a), w32 (st0.b + st.b), w32 (st0.c + st.c), w32 (st0.d + st.d),
   w32 (st0.e + st.e), w32 (st0.f + st.f), w32 (st0.g + st.g), w32 (st0.h + st.h)⟩

/-- Split a byte list into 64-byte blocks. -/
def chunk64 (l : List Nat) : List (List Nat) :=
  match l with
  | [] => []
  | x :: xs => ((x :: xs).take 64) :: chunk64 ((x :: xs).drop 64)
termination_by l.length
decreasing_by simp [List.length_drop]; omega

/-- SHA-256 padding for a message of `len` bytes. -/
def sha256Padding (len : Nat) : List Nat :=
  let zeros := (120 - (len + 1) % 64) % 64
  0x80 :: List.replicate zeros 0 ++
    (List.range 8).map (fun i => ((8 * len) >>> (8 * (7 - i))) % 256)

def wordBytesBE (w : Nat) : List Nat :=
  [(w >>> 24) % 256, (w >>> 16) % 256, (w >>> 8) % 256, w % 256]

/-- SHA-256 digest of a byte list, as the 32-byte digest list.  This embeds
Go's `sha256.Sum256`. -/
def sha256 (msg : List Nat) : List Nat :=
  let blocks := chunk64 (msg ++ sha256Padding msg.length)
  let st := blocks.foldl processBlock sha256Init
  [st.a, st.b, st.c, st.d, st.e, st.f, st.g, st.h].foldr
    (fun w acc => wordBytesBE w ++ acc) []

/-! ### Base64 encodings

Go `encoding/base64`: `RawURLEncoding` (URL alphabet, no padding) is used for
PKCE challenges and generated tokens, `StdEncoding` (standard alphabet, with
padding) for stored client-secret hashes. -/

def b64UrlAlphabet : List Char :=
  "ABCDEFGHIJKLMNOPQRSTUVWXYZabcdefghijklmnopqrstuvwxyz0123456789-_".toList

def b64StdAlphabet : List Char :=
  "ABCDEFGHIJKLMNOPQRSTUVWXYZabcdefghijklmnopqrstuvwxyz0123456789+/".toList

def b64Groups (alpha : List Char) (pad : Bool) : List Nat → List Char
  | [] => []
  | [b1] =>
      [alpha.getD (b1 >>> 2) 'A', alpha.getD ((b1 % 4) <<< 4) 'A'] ++
        (if pad then ['=', '='] else [])
  | [b1, b2] =>
      [alpha.getD (b1 >>> 2) 'A', alpha.getD (((b1 % 4) <<< 4) + (b2 >>> 4)) 'A',
       alpha.getD ((b2 % 16) <<< 2) 'A'] ++ (if pad then ['='] else [])
  | b1 :: b2 :: b3 :: rest =>
      [alpha.getD (b1 >>> 2) 'A', alpha.getD (((b1 % 4) <<< 4) + (b2 >>> 4)) 'A',
       alpha.getD (((b2 % 16) <<< 2) + (b3 >>> 6)) 'A', alpha.getD (b3 % 64) 'A'] ++
        b64Groups alpha pad rest

def base64RawURLEncode (bs : List Nat) : String := String.mk (b64Groups b64UrlAlphabet false bs)

def base64StdEncode (bs : List Nat) : String := String.mk (b64Groups b64StdAlphabet true bs)

/-- UTF-8 bytes of a string, the meaning of Go's `[]byte(s)` conversion. -/
def strBytes (s : String) : List Nat := s.toUTF8.toList.map (fun b => b.toNat)

/-! ### PKCE (`auth/pkce.go`, `auth/token_endpoint.go`) -/

/-- Embeds `generateS256Challenge`: `BASE64URL(SHA256(ASCII(code_verifier)))`. -/
def generateS256Challenge (verifier : String) : String :=
  base64RawURLEncode (sha256 (strBytes verifier))

/-- Embeds `verifyPKCE` from `auth/token_endpoint.go`: any method other than
`"S256"` is rejected, otherwise the base64url-encoded SHA-256 of the verifier
is compared with the stored challenge. -/
def verifyPKCE (codeVerifier codeChallenge method : String) : Bool :=
  if method ≠ "S256" then false
  else
    let computed := base64RawURLEncode (sha256 (strBytes codeVerifier))
    decide (computed = codeChallenge)

/-! ### Data model (`auth/metadata.go` types, `Config`) -/

/-- Embeds `ClientRegistrationRequest` (RFC 7591 client metadata). -/
structure ClientRegistrationRequest where
  redirectURIs : List String
  tokenEndpointAuthMethod : String
  grantTypes : List String
  responseTypes : List String
  clientName : String
  clientURI : String
  logoURI : String
  scope : String
  contacts : List String
  jwksURI : String
  softwareID : String
  softwareVersion : String
deriving DecidableEq

/-- Embeds `OAuthClient`: a registered OAuth client record. -/
structure OAuthClient where
  clientID : String
  clientSecret : String
  metadata : ClientRegistrationRequest
  createdAt : Nat
  expiresAt : Option Nat
deriving DecidableEq

/-- Embeds the OAuth `Config` (the fields the embedded handlers consult). -/
structure Config where
  serverURL : String
  gitHubClientID : String
  gitHubClientSecret : String
  allowedRedirectURIs : List String
  scopesSupported : List String
  tokenExpiryDuration : Nat
  enforceHTTPS : Bool
  oauthEnabled : Bool
  enableDCR : Bool
  allowPublicClients : Bool
  gitHubAPIURL : String
  gitHubAuthURL : String
  gitHubTokenURL : String
deriving DecidableEq

/-- Embeds the `contains` helper of `auth/github.go` (linear scan with `==`);
the loop bodies of `Config.IsScopeSupported` and the registered-redirect-URI
check in the authorization handler have the same shape and reuse it. -/
def containsStr : List String → String → Bool
  | [], _ => false
  | s :: rest, item => if s = item then true else containsStr rest item

/-- Embeds `Config.IsScopeSupported`. -/
def isScopeSupported (cfg : Config) (scope : String) : Bool :=
  containsStr cfg.scopesSupported scope

/-- Embeds `InMemoryClientStorage.GetClient` at the value level: the lookup in
the `clients` map, returning a copy of the record (`none` for the
"client not found" error).  Copy semantics at the Go slice level is modeled
separately below for the defensive-copy claim. -/
def getClient (clients : List (String × OAuthClient)) (clientID : String) :
    Option OAuthClient :=
  mapLookup clients clientID

/-! ### Token storage (`InMemoryTokenStorage`) -/

/-- Embeds `AuthCodeInfo`. -/
structure AuthCodeInfo where
  clientID : String
  redirectURI : String
  scope : String
  codeChallenge : String
  codeChallengeMethod : String
  resource : String
  gitHubAccessToken : String
  expiresAt : Nat
  createdAt : Nat
deriving DecidableEq

/-- Embeds `AccessTokenInfo`. -/
structure AccessTokenInfo where
  clientID : String
  scope : String
  resource : String
  gitHubAccessToken : String
  expiresAt : Nat
  createdAt : Nat
deriving DecidableEq

/-- Embeds `InMemoryTokenStorage` (two Go maps as association lists). -/
structure InMemoryTokenStorage where
  authCodes : List (String × AuthCodeInfo)
  accessTokens : List (String × AccessTokenInfo)
deriving DecidableEq

/-- Embeds `InMemoryTokenStorage.StoreAuthCode`: insert, then sweep every
entry whose `ExpiresAt` is before `now`.  The Go method always returns `nil`. -/
def storeAuthCode (now : Nat) (code : String) (info : AuthCodeInfo)
    (s : InMemoryTokenStorage) : InMemoryTokenStorage :=
  let swept :=
    (mapInsert code info s.authCodes).filter (fun p => !decide (p.2.expiresAt < now))
  { s with authCodes := swept }

/-- Embeds `InMemoryTokenStorage.GetAuthCode`.  A missing code is an error; a
present-but-expired code is deleted and reported as an error; otherwise the
record is returned and the store is untouched. -/
def getAuthCode (now : Nat) (code : String) (s : InMemoryTokenStorage) :
    Except String AuthCodeInfo × InMemoryTokenStorage :=
  match mapLookup s.authCodes code with
  | none => (.error "authorization code not found", s)
  | some info =>
      if now > info.expiresAt then
        (.error "authorization code expired",
         { s with authCodes := mapErase s.authCodes code })
      else (.ok info, s)

/-- Embeds `InMemoryTokenStorage.DeleteAuthCode` (always succeeds). -/
def deleteAuthCode (code : String) (s : InMemoryTokenStorage) :
    InMemoryTokenStorage :=
  { s with authCodes := mapErase s.authCodes code }

/-- Embeds `InMemoryTokenStorage.StoreAccessToken`: insert, then sweep expired
tokens.  Always succeeds. -/
def storeAccessToken (now : Nat) (token : String) (info : AccessTokenInfo)
    (s : InMemoryTokenStorage) : InMemoryTokenStorage :=
  let swept :=
    (mapInsert token info s.accessTokens).filter (fun p => !decide (p.2.expiresAt < now))
  { s with accessTokens := swept }

/-- Embeds `InMemoryTokenStorage.GetAccessToken`. -/
def getAccessToken (now : Nat) (token : String) (s : InMemoryTokenStorage) :
    Except String AccessTokenInfo × InMemoryTokenStorage :=
  match mapLookup s.accessTokens token with
  | none => (.error "access token not found", s)
  | some info =>
      if now > info.expiresAt then
        (.error "access token expired",
         { s with accessTokens := mapErase s.accessTokens token })
      else (.ok info, s)

/-! ### Token endpoint (`auth/token_endpoint.go`) -/

/-- A parsed token request: the HTTP method and the form values the handler
reads (`r.FormValue` yields `""` for an absent field). -/
structure TokenRequest where
  httpMethod : String
  grantType : String
  code : String
  clientID : String
  codeVerifier : String
  redirectURI : String
deriving DecidableEq

/-- Observable outcome of the token endpoint: either an OAuth error response
(error code, description, HTTP status) or a token response. -/
inductive TokenResult where
  | failure (err desc : String) (status : Nat)
  | token (accessToken tokenType : String) (expiresIn : Nat) (scope : String)
      (resource : Option String)
deriving DecidableEq

/-- Embeds `TokenEndpointHandler.ServeHTTP`.  `freshToken` is the value
produced by `generateRandomString(43)` (entropy failure is not modeled: the
claims under study concern the validation and deletion order).  The handler
returns the response together with the updated token storage. -/
def tokenEndpointServe (cfg : Config) (clients : List (String × OAuthClient))
    (s : InMemoryTokenStorage) (req : TokenRequest) (now : Nat)
    (freshToken : String) : TokenResult × InMemoryTokenStorage :=
  if req.httpMethod ≠ "POST" then
    (.failure "invalid_request" "Only POST method is allowed" 405, s)
  else if req.grantType ≠ "authorization_code" then
    (.failure "unsupported_grant_type" "Only authorization_code grant type is supported" 400, s)
  else if req.code = "" then
    (.failure "invalid_request" "code is required" 400, s)
  else if req.clientID = "" then
    (.failure "invalid_request" "client_id is required" 400, s)
  else if req.codeVerifier = "" then
    (.failure "invalid_request" "code_verifier is required (PKCE)" 400, s)
  else if req.redirectURI = "" then
    (.failure "invalid_request" "redirect_uri is required" 400, s)
  else
    match getClient clients req.clientID with
    | none => (.failure "invalid_client" "Unknown client_id" 401, s)
    | some _ =>
      match getAuthCode now req.code s with
      | (.error _, s1) =>
          (.failure "invalid_grant" "Invalid or expired authorization code" 400, s1)
      | (.ok authCodeInfo, s1) =>
        if authCodeInfo.clientID ≠ req.clientID then
          (.failure "invalid_grant" "client_id mismatch" 400, s1)
        else if authCodeInfo.redirectURI ≠ req.redirectURI then
          (.failure "invalid_grant" "redirect_uri mismatch" 400, s1)
        else if !(verifyPKCE req.codeVerifier authCodeInfo.codeChallenge
                    authCodeInfo.codeChallengeMethod) then
          (.failure "invalid_grant" "PKCE verification failed" 400, s1)
        else
          let s2 := deleteAuthCode req.code s1
          let tokenInfo : AccessTokenInfo :=
            { clientID := req.clientID
              scope := authCodeInfo.scope
              resource := authCodeInfo.resource
              gitHubAccessToken := authCodeInfo.gitHubAccessToken
              expiresAt := now + cfg.tokenExpiryDuration
              createdAt := now }
          let s3 := storeAccessToken now freshToken tokenInfo s2
          (.token freshToken "Bearer" cfg.tokenExpiryDuration authCodeInfo.scope
             (if authCodeInfo.resource ≠ "" then some authCodeInfo.resource else none),
           s3)

/-! ### State store (`StateStore` in `auth/pkce.go`) -/

/-- Embeds `AuthState`: the stored state of an ongoing authorization flow. -/
structure AuthState where
  clientID : String
  redirectURI : String
  scope : String
  clientState : String
  codeChallenge : String
  codeChallengeMethod : String
  resource : String
  createdAt : Nat
deriving DecidableEq

/-- The 10-minute state TTL (`10 * time.Minute` in `StateStore.Store`),
expressed in seconds. -/
def stateTTL : Nat := 600

/-- Embeds `StateStore.Store`: insert the state, then sweep every entry whose
`CreatedAt` is before `now` minus the 10-minute cutoff.  (In Go the cutoff is
`time.Now().Add(-10 * time.Minute)`; natural-number subtraction truncates at
zero, which only widens the kept set for instants below the TTL.) -/
def stateStoreStore (now : Nat) (key : String) (a : AuthState)
    (states : List (String × AuthState)) : List (String × AuthState) :=
  (mapInsert key a states).filter (fun p => !decide (p.2.createdAt < now - stateTTL))

/-- Embeds `StateStore.Get`: a plain map lookup.  The Go method takes no
clock, performs no expiry check and never modifies the map. -/
def stateStoreGet (key : String) (states : List (String × AuthState)) :
    Option AuthState :=
  mapLookup states key

/-- Embeds `StateStore.Delete`. -/
def stateStoreDelete (key : String) (states : List (String × AuthState)) :
    List (String × AuthState) :=
  mapErase states key

/-! ### Authorization endpoint (`AuthorizationHandler` in `auth/pkce.go`) -/

/-- The query parameters the authorization handler reads (`query.Get` yields
`""` for an absent parameter). -/
structure AuthorizeRequest where
  responseType : String
  clientID : String
  redirectURI : String
  scope : String
  clientState : String
  codeChallenge : String
  codeChallengeMethod : String
  resource : String
deriving DecidableEq

/-- Observable outcome of the authorization endpoint.
`directError` is `http.Error` (a plain response body, no redirect);
`errorRedirect` is a 302 redirect to `uri` carrying
`error`/`error_description`/`state` query parameters;
`githubRedirect` is the 302 redirect to the upstream GitHub authorization URL
(its recorded fields are the parameters the handler sets). -/
inductive AuthzResult where
  | directError (body : String) (status : Nat)
  | errorRedirect (uri errCode errDesc clientState : String)
  | githubRedirect (authURL ghClientID ghRedirectURI ghScope internalState : String)
deriving DecidableEq

/-- Embeds `AuthorizationHandler.sendError`: with an empty redirect URI the
error is written directly into the response, otherwise the handler redirects
to `redirectURI` with the error in the query string.  (Go additionally falls
back to a direct error when `url.Parse(redirectURI)` fails, which for the
URIs considered here never happens; an empty `clientState` is simply not
appended as a query parameter, which the `errorRedirect` constructor records
as the empty string.) -/
def authSendError (redirectURI clientState errCode errDesc : String) : AuthzResult :=
  if redirectURI = "" then .directError (errCode ++ ": " ++ errDesc) 400
  else .errorRedirect redirectURI errCode errDesc clientState

/-- Embeds `AuthorizationHandler.ServeHTTP`.  `internalState` is the value
produced by `generateRandomString(32)` (entropy failure and a malformed
configured GitHub auth URL are not modeled: the claims under study concern
the validation gates).  Returns the outcome and the updated state store. -/
def authorizationServe (cfg : Config) (clients : List (String × OAuthClient))
    (states : List (String × AuthState)) (req : AuthorizeRequest) (now : Nat)
    (internalState : String) : AuthzResult × List (String × AuthState) :=
  if req.responseType ≠ "code" then
    (authSendError req.redirectURI req.clientState "unsupported_response_type"
       "Only 'code' response type is supported", states)
  else if req.clientID = "" then
    (authSendError req.redirectURI req.clientState "invalid_request"
       "client_id is required", states)
  else
    match getClient clients req.clientID with
    | none =>
        (authSendError req.redirectURI req.clientState "invalid_client"
           "Unknown client_id", states)
    | some client =>
      if req.redirectURI = "" then
        (authSendError req.redirectURI req.clientState "invalid_request"
           "redirect_uri is required", states)
      else if !(containsStr client.metadata.redirectURIs req.redirectURI) then
        (authSendError "" req.clientState "invalid_request"
           "redirect_uri not registered for this client", states)
      else if req.codeChallenge = "" then
        (authSendError req.redirectURI req.clientState "invalid_request"
           "code_challenge is required (PKCE)", states)
      else if req.codeChallengeMethod ≠ "S256" then
        (authSendError req.redirectURI req.clientState "invalid_request"
           "code_challenge_method must be S256", states)
      else
        let scope :=
          if req.scope = "" then "mcp:tools mcp:resources read:user" else req.scope
        let requestedScopes := scope.splitOn " "
        match requestedScopes.find? (fun sc => !(isScopeSupported cfg sc)) with
        | some sc =>
            (authSendError req.redirectURI req.clientState "invalid_scope"
               ("Scope '" ++ sc ++ "' is not supported"), states)
        | none =>
          let authState : AuthState :=
            { clientID := req.clientID
              redirectURI := req.redirectURI
              scope := scope
              clientState := req.clientState
              codeChallenge := req.codeChallenge
              codeChallengeMethod := req.codeChallengeMethod
              resource := req.resource
              createdAt := now }
          let states1 := stateStoreStore now internalState authState states
          (.githubRedirect cfg.gitHubAuthURL cfg.gitHubClientID
             (cfg.serverURL ++ "/oauth/callback") "read:user" internalState, states1)

/-! ### Callback endpoint (the `CallbackHandler` wired to the state store and
token storage) -/

/-- Observable outcome of the callback endpoint.  `directError` is
`http.Error`; `errorRedirect` carries `error`/`error_description`/`state`
back to the client redirect URI; `codeRedirect` is the success redirect with
the freshly minted authorization code. -/
inductive CallbackResult where
  | directError (body : String) (status : Nat)
  | errorRedirect (uri errCode errDesc clientState : String)
  | codeRedirect (uri code clientState : String)
deriving DecidableEq

/-- Embeds `CallbackHandler.sendErrorRedirect` (the `url.Parse` failure
branch, unreachable for the stored URIs considered here, is not modeled). -/
def callbackSendErrorRedirect (authState : AuthState) (errCode errDesc : String) :
    CallbackResult :=
  .errorRedirect authState.redirectURI errCode errDesc authState.clientState

/-- Embeds `CallbackHandler.ServeHTTP`.  `qCode`, `qState`, `qError` and
`qErrorDesc` are the query parameters; `exchangeResult` is the outcome of the
network call `exchangeGitHubCode(qCode)`; `mintedCode` is the outcome of
`generateRandomString(32)` (`none` for an entropy failure).  Returns the
outcome, the updated state store and the updated token storage. -/
def callbackServe (stateStore : List (String × AuthState))
    (ts : InMemoryTokenStorage) (qCode qState qError qErrorDesc : String)
    (exchangeResult : Except String String) (mintedCode : Option String)
    (now : Nat) :
    CallbackResult × List (String × AuthState) × InMemoryTokenStorage :=
  if qError ≠ "" then
    (.directError ("Authorization error: " ++ qError ++ " - " ++ qErrorDesc) 400,
     stateStore, ts)
  else if qCode = "" then
    (.directError "No authorization code received" 400, stateStore, ts)
  else
    match stateStoreGet qState stateStore with
    | none => (.directError "Invalid or expired state parameter" 400, stateStore, ts)
    | some authState =>
      match exchangeResult with
      | .error _ =>
          (callbackSendErrorRedirect authState "server_error"
             "Failed to obtain access token", stateStore, ts)
      | .ok githubToken =>
        match mintedCode with
        | none =>
            (callbackSendErrorRedirect authState "server_error"
               "Failed to generate authorization code", stateStore, ts)
        | some ourAuthCode =>
          let authCodeInfo : AuthCodeInfo :=
            { clientID := authState.clientID
              redirectURI := authState.redirectURI
              scope := authState.scope
              codeChallenge := authState.codeChallenge
              codeChallengeMethod := authState.codeChallengeMethod
              resource := authState.resource
              gitHubAccessToken := githubToken
              expiresAt := now + 600
              createdAt := now }
          let ts1 := storeAuthCode now ourAuthCode authCodeInfo ts
          let stateStore1 := stateStoreDelete qState stateStore
          (.codeRedirect authState.redirectURI ourAuthCode authState.clientState,
           stateStore1, ts1)

/-! ### Scope mapping (`mapGitHubScopesToMCP` in `auth/github.go`) -/

/-- One iteration of the scope-mapping loop: the `switch` on a single GitHub
scope.  Repository-read scopes add `mcp:resources`, repository-write scopes
add `mcp:tools`, user scopes are skipped (already implied), anything else is
passed through unchanged (deduplicated). -/
def mapScopeStep (mcpScopes : List String) (scope : String) : List String :=
  if scope = "repo" ∨ scope = "public_repo" ∨ scope = "read:repo_hook" then
    if !(containsStr mcpScopes "mcp:resources") then mcpScopes ++ ["mcp:resources"]
    else mcpScopes
  else if scope = "workflow" ∨ scope = "write:repo_hook" ∨ scope = "admin:repo_hook" then
    if !(containsStr mcpScopes "mcp:tools") then mcpScopes ++ ["mcp:tools"]
    else mcpScopes
  else if scope = "read:user" ∨ scope = "user" ∨ scope = "user:email" then mcpScopes
  else if !(containsStr mcpScopes scope) then mcpScopes ++ [scope]
  else mcpScopes

/-- Embeds `mapGitHubScopesToMCP`: start from `["read:user"]`, fold the
`switch` over the GitHub scopes, and if the result still only holds
`read:user` (length 1) append both `mcp:tools` and `mcp:resources`. -/
def mapGitHubScopesToMCP (githubScopes : List String) : List String :=
  let mcpScopes := githubScopes.foldl mapScopeStep ["read:user"]
  if mcpScopes.length = 1 then mcpScopes ++ ["mcp:tools", "mcp:resources"]
  else mcpScopes

/-! ### Dynamic client registration (`auth/registration.go`) -/

/-- Embeds `hashSecret` (`auth/storage.go`): standard base64 of the SHA-256
of the secret. -/
def hashSecret (secret : String) : String :=
  base64StdEncode (sha256 (strBytes secret))

/-- Embeds `RegistrationHandler.validateRequest`; `none` is the `nil` error,
`some msg` the error message.  The per-element loops, which report the first
offending element, are expressed with `List.find?`. -/
def validateRegistration (cfg : Config) (req : ClientRegistrationRequest) :
    Option String :=
  if req.redirectURIs.length = 0 then some "at least one redirect_uri is required"
  else
    match req.redirectURIs.find? (fun uri => decide (uri = "") || decide (uri.length > 2048)) with
    | some uri =>
        if uri = "" then some "redirect_uri cannot be empty"
        else some ("redirect_uri too long: " ++ uri)
    | none =>
      match req.grantTypes.find? (fun gt => !(containsStr
          ["authorization_code", "implicit", "password", "client_credentials",
           "refresh_token"] gt)) with
      | some gt => some ("invalid grant_type: " ++ gt)
      | none =>
        match req.responseTypes.find? (fun rt => !(containsStr ["code", "token"] rt)) with
        | some rt => some ("invalid response_type: " ++ rt)
        | none =>
          if req.tokenEndpointAuthMethod ≠ "" then
            if !(containsStr ["none", "client_secret_post", "client_secret_basic"]
                   req.tokenEndpointAuthMethod) then
              some ("invalid token_endpoint_auth_method: " ++ req.tokenEndpointAuthMethod)
            else if req.tokenEndpointAuthMethod = "none" ∧ !cfg.allowPublicClients then
              some "public clients are not allowed"
            else if req.clientName.length > 256 then
              some "client_name too long (max 256 characters)"
            else none
          else if req.clientName.length > 256 then
            some "client_name too long (max 256 characters)"
          else none

/-- Embeds `RegistrationHandler.applyDefaults`. -/
def applyDefaults (cfg : Config) (req : ClientRegistrationRequest) :
    ClientRegistrationRequest :=
  { req with
    tokenEndpointAuthMethod :=
      if req.tokenEndpointAuthMethod = "" then
        if cfg.allowPublicClients then "none" else "client_secret_basic"
      else req.tokenEndpointAuthMethod
    grantTypes := if req.grantTypes.length = 0 then ["authorization_code"] else req.grantTypes
    responseTypes := if req.responseTypes.length = 0 then ["code"] else req.responseTypes
    scope := if req.scope = "" then "mcp:tools mcp:resources read:user" else req.scope }

/-- The registration response (`ClientRegistrationResponse`): the issued
credentials plus the (defaulted) echoed metadata. -/
structure ClientRegistrationResponse where
  clientID : String
  clientSecret : String
  clientIDIssuedAt : Nat
  clientSecretExpiresAt : Nat
  metadata : ClientRegistrationRequest
deriving DecidableEq

/-- Observable outcome of the registration endpoint: an error response or a
201 Created with the registration response. -/
inductive RegistrationResult where
  | failure (err desc : String) (status : Nat)
  | created (resp : ClientRegistrationResponse)
deriving DecidableEq

/-- Embeds `RegistrationHandler.ServeHTTP`.  `body` is the decoded JSON
request (`none` for a malformed body); `genClientID` and `genClientSecret`
are the values `GenerateClientID`/`GenerateClientSecret` would produce
(entropy failure is not modeled).  Note the order, taken from the source: the
client secret is generated — and its hash retained — whenever the REQUESTED
`token_endpoint_auth_method` differs from `"none"`, and only afterwards are
defaults applied, so a method left empty never suppresses the secret even
when it defaults to `"none"`. -/
def registrationServe (cfg : Config) (httpMethod : String)
    (body : Option ClientRegistrationRequest) (genClientID genClientSecret : String)
    (now : Nat) (store : List (String × OAuthClient)) :
    RegistrationResult × List (String × OAuthClient) :=
  if httpMethod ≠ "POST" then
    (.failure "invalid_request" "Only POST method is allowed" 405, store)
  else if !cfg.enableDCR then
    (.failure "invalid_request" "Dynamic client registration is not enabled" 403, store)
  else
    match body with
    | none => (.failure "invalid_request" "Invalid JSON in request body" 400, store)
    | some req =>
      match validateRegistration cfg req with
      | some msg => (.failure "invalid_client_metadata" msg 400, store)
      | none =>
        let clientSecret :=
          if req.tokenEndpointAuthMethod ≠ "none" then genClientSecret else ""
        let hashedSecret :=
          if req.tokenEndpointAuthMethod ≠ "none" then hashSecret genClientSecret else ""
        let req1 := applyDefaults cfg req
        let client : OAuthClient :=
          { clientID := genClientID
            clientSecret := hashedSecret
            metadata := req1
            createdAt := now
            expiresAt := none }
        let store1 := mapInsert genClientID client store
        let resp : ClientRegistrationResponse :=
          { clientID := genClientID
            clientSecret := clientSecret
            clientIDIssuedAt := now
            clientSecretExpiresAt := 0
            metadata := req1 }
        (.created resp, store1)

/-! ### Go slice aliasing (for the defensive-copy behaviour of
`InMemoryClientStorage.GetClient`)

`GetClient` performs `clientCopy := *client`.  Go struct assignment copies
scalar fields and slice HEADERS; the backing array of a `[]string` field is
shared between the original and the copy.  To state what a caller's mutation
of a returned record does to the stored record, backing arrays live in an
explicit heap and a slice-valued field holds the address of its backing
array.  Struct assignment is then the identity on the record value (both
records hold the same address), which is exactly the Go shallow copy. -/

/-- A Go `[]string` slice header: the address of its backing array.  (Length
and capacity are immaterial for the mutations considered.) -/
structure GoSlice where
  addr : Nat
deriving DecidableEq

/-- Heap of backing arrays for `[]string` slices. -/
def SliceHeap : Type := List (Nat × List String)

/-- The slice-valued metadata fields of `ClientRegistrationRequest` as slice
headers, together with the scalar fields relevant here. -/
structure ClientMetadataS where
  redirectURIs : GoSlice
  grantTypes : GoSlice
  responseTypes : GoSlice
  contacts : GoSlice
  tokenEndpointAuthMethod : String
  clientName : String
  scope : String
deriving DecidableEq

/-- `OAuthClient` at the slice level. -/
structure OAuthClientS where
  clientID : String
  clientSecret : String
  metadata : ClientMetadataS
  createdAt : Nat
deriving DecidableEq

/-- Read a slice's elements from the heap. -/
def heapRead (h : SliceHeap) (sl : GoSlice) : List String :=
  (mapLookup h sl.addr).getD []

/-- A caller's in-place element assignment `sl[i] = v` through a slice
header: it writes the shared backing array. -/
def heapWriteElem (h : SliceHeap) (sl : GoSlice) (i : Nat) (v : String) : SliceHeap :=
  mapInsert sl.addr ((heapRead h sl).set i v) h

/-- Embeds `InMemoryClientStorage.GetClient` at the slice level: look the
record up and return the struct copy `clientCopy := *client`.  The copy
duplicates every field value — and a slice field's value is its header, so
the returned record's slice fields still point at the stored backing
arrays. -/
def getClientShallow (store : List (String × OAuthClientS)) (clientID : String) :
    Option OAuthClientS :=
  mapLookup store clientID

/-! ### Concrete fixtures used to evaluate the handlers on explicit inputs -/

/-- A server configuration with the default supported scopes, DCR enabled and
public clients allowed (the `DefaultConfig` values of the relevant fields). -/
def cfgEx : Config :=
  { serverURL := "http://localhost:8080"
    gitHubClientID := "gh-client-id"
    gitHubClientSecret := "gh-client-secret"
    allowedRedirectURIs := ["http://127.0.0.1:33418", "https://vscode.dev/redirect"]
    scopesSupported := ["mcp:tools", "mcp:resources", "read:user"]
    tokenExpiryDuration := 3600
    enforceHTTPS := false
    oauthEnabled := false
    enableDCR := true
    allowPublicClients := true
    gitHubAPIURL := "https://api.github.com"
    gitHubAuthURL := "https://github.com/login/oauth/authorize"
    gitHubTokenURL := "https://github.com/login/oauth/access_token" }

/-- Registered metadata of the example clients. -/
def mdEx : ClientRegistrationRequest :=
  { redirectURIs := ["https://client.example/cb"]
    tokenEndpointAuthMethod := "none"
    grantTypes := ["authorization_code"]
    responseTypes := ["code"]
    clientName := "Example Client"
    clientURI := ""
    logoURI := ""
    scope := "mcp:tools mcp:resources read:user"
    contacts := []
    jwksURI := ""
    softwareID := ""
    softwareVersion := "" }

/-- A registered public client. -/
def clientA : OAuthClient :=
  { clientID := "client-a", clientSecret := "", metadata := mdEx, createdAt := 0,
    expiresAt := none }

/-- A second registered public client. -/
def clientB : OAuthClient :=
  { clientID := "client-b", clientSecret := "", metadata := mdEx, createdAt := 0,
    expiresAt := none }

/-- An authorization code minted for `client-a`, not yet expired at the
instants used below. -/
def authCodeInfoEx : AuthCodeInfo :=
  { clientID := "client-a"
    redirectURI := "https://client.example/cb"
    scope := "read:user"
    codeChallenge := generateS256Challenge "verifier-string-for-tests-0123456789abcdefgh"
    codeChallengeMethod := "S256"
    resource := ""
    gitHubAccessToken := "gh-access-token"
    expiresAt := 1000
    createdAt := 400 }

/-- Token storage holding the single authorization code `code-1`. -/
def tsEx : InMemoryTokenStorage :=
  { authCodes := [("code-1", authCodeInfoEx)], accessTokens := [] }

/-- A redemption request for `code-1` sent by the WRONG client (`client-b`,
itself registered): the code resolves, then the `client_id` match fails. -/
def tokenReqMismatch : TokenRequest :=
  { httpMethod := "POST"
    grantType := "authorization_code"
    code := "code-1"
    clientID := "client-b"
    codeVerifier := "verifier-string-for-tests-0123456789abcdefgh"
    redirectURI := "https://client.example/cb" }

/-- A fully valid redemption request for `code-1` by `client-a`. -/
def tokenReqOk : TokenRequest :=
  { tokenReqMismatch with clientID := "client-a" }

/-- An authorization request that fails the `response_type` gate while
supplying an attacker-controlled `redirect_uri` that no validation has
looked at. -/
def authzReqBadResponseType : AuthorizeRequest :=
  { responseType := "token"
    clientID := ""
    redirectURI := "https://attacker.example/phish"
    scope := ""
    clientState := "cs-1"
    codeChallenge := ""
    codeChallengeMethod := ""
    resource := "" }

/-- An authorization request with an unknown `client_id` and the same
attacker-controlled `redirect_uri`. -/
def authzReqUnknownClient : AuthorizeRequest :=
  { authzReqBadResponseType with responseType := "code", clientID := "no-such-client" }

/-- A state-store entry created at instant 0 (so it is far beyond the
10-minute TTL at instant 1000). -/
def staleAuthState : AuthState :=
  { clientID := "client-a"
    redirectURI := "https://client.example/cb"
    scope := "read:user"
    clientState := "cs-1"
    codeChallenge := generateS256Challenge "verifier-string-for-tests-0123456789abcdefgh"
    codeChallengeMethod := "S256"
    resource := ""
    createdAt := 0 }

/-- A fresh state-store entry (used as the later `Store` argument). -/
def freshAuthState : AuthState :=
  { staleAuthState with clientState := "cs-2", createdAt := 950 }

/-- The slice heap holding the backing array (at address 0) of the stored
client record's `RedirectURIs` field. -/
def heapEx : SliceHeap := [(0, ["https://legit.example/cb"])]

/-- The stored client record at the slice level: its `RedirectURIs` header
points at address 0 of `heapEx`. -/
def storedClientS : OAuthClientS :=
  { clientID := "client-a"
    clientSecret := ""
    metadata :=
      { redirectURIs := ⟨0⟩
        grantTypes := ⟨1⟩
        responseTypes := ⟨2⟩
        contacts := ⟨3⟩
        tokenEndpointAuthMethod := "none"
        clientName := "Example Client"
        scope := "mcp:tools mcp:resources read:user" }
    createdAt := 0 }

/-- A registration request leaving `token_endpoint_auth_method` absent
(empty), so that the default (`"none"`, public) applies. -/
def regReqDefaultMethod : ClientRegistrationRequest :=
  { redirectURIs := ["http://127.0.0.1:33418"]
    tokenEndpointAuthMethod := ""
    grantTypes := []
    responseTypes := []
    clientName := "Example Client"
    clientURI := ""
    logoURI := ""
    scope := ""
    contacts := []
    jwksURI := ""
    softwareID := ""
    softwareVersion := "" }

/-- A registration request explicitly asking for `"none"` (public client). -/
def regReqExplicitNone : ClientRegistrationRequest :=
  { regReqDefaultMethod with tokenEndpointAuthMethod := "none" }

/-! ### Helper lemmas -/

theorem mapLookup_mapErase_self {κ α : Type} [DecidableEq κ]
    (m : List (κ × α)) (k : κ) : mapLookup (mapErase m k) k = none := by
  induction m with
  | nil => rfl
  | cons p rest ih =>
    obtain ⟨k', v⟩ := p
    by_cases hk : k' = k
    · simp [mapErase, hk, ih]
    · simp [mapErase, mapLookup, hk, ih]

theorem mapLookup_mapInsert_self {κ α : Type} [DecidableEq κ]
    (m : List (κ × α)) (k : κ) (v : α) : mapLookup (mapInsert k v m) k = some v := by
  simp [mapInsert, mapLookup]

theorem containsStr_eq_true_iff_mem (l : List String) (x : String) :
    containsStr l x = true ↔ x ∈ l := by
  induction l with
  | nil => simp [containsStr]
  | cons s rest ih =>
    by_cases hs : s = x
    · simp [containsStr, hs]
    · simp only [containsStr, hs, if_false, ih, List.mem_cons]
      constructor
      · exact fun h => Or.inr h
      · rintro (h | h)
        · exact absurd h.symm hs
        · exact h

theorem verifyPKCE_roundtrip (v : String) :
    verifyPKCE v (generateS256Challenge v) "S256" = true := by
  simp [verifyPKCE, generateS256Challenge]

theorem verifyPKCE_challenge_mismatch (v c : String)
    (hc : c ≠ generateS256Challenge v) : verifyPKCE v c "S256" = false := by
  simp [verifyPKCE, generateS256Challenge] at hc ⊢
  exact fun h => hc h.symm

theorem verifyPKCE_non_s256 (v c m : String) (hm : m ≠ "S256") :
    verifyPKCE v c m = false := by
  simp [verifyPKCE, hm]

theorem getAuthCode_found_fresh (now : Nat) (code : String)
    (s : InMemoryTokenStorage) (info : AuthCodeInfo)
    (hl : mapLookup s.authCodes code = some info) (hx : ¬ now > info.expiresAt) :
    getAuthCode now code s = (.ok info, s) := by
  simp [getAuthCode, hl, hx]

theorem getAuthCode_not_found (now : Nat) (code : String)
    (s : InMemoryTokenStorage) (hl : mapLookup s.authCodes code = none) :
    getAuthCode now code s = (.error "authorization code not found", s) := by
  simp [getAuthCode, hl]

theorem storeAccessToken_authCodes (now : Nat) (token : String)
    (info : AccessTokenInfo) (s : InMemoryTokenStorage) :
    (storeAccessToken now token info s).authCodes = s.authCodes := rfl

theorem deleteAuthCode_authCodes (code : String) (s : InMemoryTokenStorage) :
    (deleteAuthCode code s).authCodes = mapErase s.authCodes code := rfl

theorem mapScopeStep_user (acc : List String) (sc : String)
    (h : sc = "read:user" ∨ sc = "user" ∨ sc = "user:email") :
    mapScopeStep acc sc = acc := by
  rcases h with h | h | h <;> subst h <;> simp [mapScopeStep]

theorem foldl_mapScopeStep_user (scopes : List String)
    (h : ∀ sc ∈ scopes, sc = "read:user" ∨ sc = "user" ∨ sc = "user:email") :
    ∀ acc : List String, scopes.foldl mapScopeStep acc = acc := by
  induction scopes with
  | nil => intro acc; rfl
  | cons hd tl ih =>
    intro acc
    rw [List.foldl_cons, mapScopeStep_user acc hd (h hd (by simp))]
    exact ih (fun sc hsc => h sc (by simp [hsc])) acc

theorem mem_mapScopeStep_of_mem (acc : List String) (sc x : String)
    (h : x ∈ acc) : x ∈ mapScopeStep acc sc := by
  unfold mapScopeStep
  repeat' split
  all_goals simp [List.mem_append, h]

theorem mem_foldl_mapScopeStep_of_mem (scopes : List String) (x : String) :
    ∀ acc : List String, x ∈ acc → x ∈ scopes.foldl mapScopeStep acc := by
  induction scopes with
  | nil => intro acc h; exact h
  | cons hd tl ih =>
    intro acc h
    rw [List.foldl_cons]
    exact ih _ (mem_mapScopeStep_of_mem acc hd x h)

theorem self_mem_mapScopeStep_unrecognized (acc : List String) (sc : String)
    (h : sc ∉ ["repo", "public_repo", "read:repo_hook", "workflow",
               "write:repo_hook", "admin:repo_hook", "read:user", "user",
               "user:email"]) :
    sc ∈ mapScopeStep acc sc := by
  simp only [List.mem_cons, List.not_mem_nil, or_false, not_or] at h
  obtain ⟨h1, h2, h3, h4, h5, h6, h7, h8, h9⟩ := h
  unfold mapScopeStep
  simp only [h1, h2, h3, h4, h5, h6, h7, h8, h9, or_self, if_false, false_or]
  by_cases hc : containsStr acc sc = true
  · simp [hc, (containsStr_eq_true_iff_mem acc sc).mp hc]
  · simp [hc]

theorem mem_foldl_mapScopeStep_unrecognized (scopes : List String) (sc : String)
    (hmem : sc ∈ scopes)
    (hunrec : sc ∉ ["repo", "public_repo", "read:repo_hook", "workflow",
                    "write:repo_hook", "admin:repo_hook", "read:user", "user",
                    "user:email"]) :
    ∀ acc : List String, sc ∈ scopes.foldl mapScopeStep acc := by
  induction scopes with
  | nil => exact absurd hmem (List.not_mem_nil sc)
  | cons hd tl ih =>
    intro acc
    rw [List.foldl_cons]
    rcases List.mem_cons.mp hmem with heq | htl
    · subst heq
      exact mem_foldl_mapScopeStep_of_mem tl sc _
        (self_mem_mapScopeStep_unrecognized acc sc hunrec)
    · exact ih htl _

/-! ### Claim theorems -/

/-- C2: the claim says that an authorization request failing a validation
gate before the redirect URI has been validated (wrong `response_type`,
empty or unknown `client_id`) gets its error returned directly in the HTTP
response body and never as a redirect to the request-supplied
`redirect_uri`.  The code does the opposite: at both the `response_type`
gate and the unknown-`client_id` gate it hands the UNVALIDATED
request-supplied `redirect_uri` to `sendError`, which redirects to it
whenever it is non-empty.  Evaluating the embedded handler on such requests
shows the error delivered as a redirect to the attacker-controlled URI. -/
theorem c2_error_redirected_before_validation :
    (authorizationServe cfgEx [] [] authzReqBadResponseType 0 "internal-state").1 =
      AuthzResult.errorRedirect "https://attacker.example/phish"
        "unsupported_response_type" "Only 'code' response type is supported" "cs-1" ∧
    (authorizationServe cfgEx [] [] authzReqUnknownClient 0 "internal-state").1 =
      AuthzResult.errorRedirect "https://attacker.example/phish"
        "invalid_client" "Unknown client_id" "cs-1" :=
  ⟨rfl, rfl⟩

/-- C5: the claim says a `Get` on the state store returns not-found for an
entry older than the 10-minute TTL and deletes the stale entry on that read.
`StateStore.Get` is in fact a bare map lookup: it consults no clock, deletes
nothing, and returns the entry no matter how old it is.  Here an entry
created at instant 0 is still returned at instant 1000 (far past the
600-second TTL); the entry is only purged by the sweep inside a LATER
`Store` call (third conjunct). -/
theorem c5_get_ignores_ttl :
    stateTTL < 1000 ∧
    stateStoreGet "state-key" [("state-key", staleAuthState)] = some staleAuthState ∧
    stateStoreGet "state-key"
        (stateStoreStore 1000 "other-key" freshAuthState
          [("state-key", staleAuthState)]) = none := by
  refine ⟨by decide, rfl, ?_⟩
  decide

/-- C6: the claim says the record returned by the client store's `Get` is a
defensive copy, so no caller mutation — including one on the redirect-URI
list — can change the stored record.  `GetClient` copies the struct
shallowly (`clientCopy := *client`), so the returned record's
`RedirectURIs` slice header still points at the stored backing array: the
returned record equals the stored one, header included (first conjunct), and
a caller's element write through the returned record's header changes what
the STORED record's redirect-URI list reads back (remaining conjuncts). -/
theorem c6_shallow_copy_aliases_store :
    getClientShallow [("client-a", storedClientS)] "client-a" = some storedClientS ∧
    heapRead heapEx storedClientS.metadata.redirectURIs = ["https://legit.example/cb"] ∧
    heapRead
        (heapWriteElem heapEx storedClientS.metadata.redirectURIs 0
          "https://evil.example/steal")
        storedClientS.metadata.redirectURIs = ["https://evil.example/steal"] :=
  ⟨rfl, rfl, rfl⟩

/-- C7 counterexample: the upstream scope list `["gist"]` matches neither the
repository-read nor the repository-write mapping, so the claim asserts the
result contains both `mcp:tools` and `mcp:resources`.  It contains neither:
the passed-through unrecognized scope makes the result longer than one
entry, which suppresses the fallback. -/
theorem c7_fallback_suppressed_by_passthrough :
    mapGitHubScopesToMCP ["gist"] = ["read:user", "gist"] ∧
    "mcp:tools" ∉ mapGitHubScopesToMCP ["gist"] ∧
    "mcp:resources" ∉ mapGitHubScopesToMCP ["gist"] := by
  refine ⟨rfl, ?_, ?_⟩ <;> decide

/-- C7 (amended): the permissive fallback granting both `mcp:tools` and
`mcp:resources` applies exactly when the mapped list is still only
`read:user` after the loop — in particular whenever every upstream scope is
one of the user scopes `read:user`, `user`, `user:email` (first conjunct);
unrecognized upstream scopes are passed through unchanged into the result
(second conjunct), and their presence suppresses the fallback. -/
theorem c7_fallback_only_when_user_scopes :
    (∀ scopes : List String,
        (∀ sc ∈ scopes, sc = "read:user" ∨ sc = "user" ∨ sc = "user:email") →
        mapGitHubScopesToMCP scopes = ["read:user", "mcp:tools", "mcp:resources"]) ∧
    (∀ (scopes : List String) (sc : String), sc ∈ scopes →
        sc ∉ ["repo", "public_repo", "read:repo_hook", "workflow",
              "write:repo_hook", "admin:repo_hook", "read:user", "user",
              "user:email"] →
        sc ∈ mapGitHubScopesToMCP scopes) := by
  constructor
  · intro scopes h
    unfold mapGitHubScopesToMCP
    rw [foldl_mapScopeStep_user scopes h]
    rfl
  · intro scopes sc hmem hunrec
    unfold mapGitHubScopesToMCP
    have h := mem_foldl_mapScopeStep_unrecognized scopes sc hmem hunrec ["read:user"]
    by_cases hlen : (scopes.foldl mapScopeStep ["read:user"]).length = 1
    · simp only [hlen, if_true]
      exact List.mem_append_left _ h
    · simp only [hlen, if_false]
      exact h

/-- C7 witness: the amended theorem applied at the concrete upstream scope
lists `["user"]` (all user scopes, fallback fires) and `["gist"]`
(unrecognized scope passed through). -/
theorem c7_fallback_only_when_user_scopes_witness :
    mapGitHubScopesToMCP ["user"] = ["read:user", "mcp:tools", "mcp:resources"] ∧
    "gist" ∈ mapGitHubScopesToMCP ["gist"] :=
  ⟨c7_fallback_only_when_user_scopes.1 ["user"] (by decide),
   c7_fallback_only_when_user_scopes.2 ["gist"] "gist" (by decide) (by decide)⟩

/-- C8: mapping the upstream scope list `["repo"]` yields a local scope set
that includes `read:user` and `mcp:resources` and excludes `mcp:tools`. -/
theorem c8_repo_maps_to_resources_only :
    "read:user" ∈ mapGitHubScopesToMCP ["repo"] ∧
    "mcp:resources" ∈ mapGitHubScopesToMCP ["repo"] ∧
    "mcp:tools" ∉ mapGitHubScopesToMCP ["repo"] := by
  refine ⟨?_, ?_, ?_⟩ <;> decide

/-- C1 counterexample: a redemption request whose code resolves in the
authorization-code store (it is the stored, unexpired `code-1`) and whose
later `client_id` match fails.  The claim says the redemption attempt
consumes the code; in fact the handler returns `invalid_grant` BEFORE
reaching `DeleteAuthCode`, and the code is still stored afterwards (third
conjunct), the storage being returned unchanged. -/
theorem c1_code_survives_failed_redemption :
    mapLookup tsEx.authCodes "code-1" = some authCodeInfoEx ∧
    tokenEndpointServe cfgEx [("client-a", clientA), ("client-b", clientB)] tsEx
        tokenReqMismatch 500 "fresh-token" =
      (TokenResult.failure "invalid_grant" "client_id mismatch" 400, tsEx) ∧
    mapLookup (tokenEndpointServe cfgEx [("client-a", clientA), ("client-b", clientB)]
        tsEx tokenReqMismatch 500 "fresh-token").2.authCodes "code-1" =
      some authCodeInfoEx :=
  ⟨rfl, rfl, rfl⟩

/-- C1 (amended): the stored authorization code is deleted only when the
`client_id` match, the `redirect_uri` match and the PKCE verification all
succeed; a redemption whose code resolves (unexpired) but whose later
validation step fails returns `invalid_grant` and leaves the token storage
— in particular the authorization code — unchanged. -/
theorem c1_code_kept_on_failed_validation
    (cfg : Config) (clients : List (String × OAuthClient))
    (s : InMemoryTokenStorage) (req : TokenRequest) (now : Nat) (tok : String)
    (cl : OAuthClient) (info : AuthCodeInfo)
    (hm : req.httpMethod = "POST") (hg : req.grantType = "authorization_code")
    (hc : req.code ≠ "") (hid : req.clientID ≠ "") (hv : req.codeVerifier ≠ "")
    (hr : req.redirectURI ≠ "")
    (hcl : getClient clients req.clientID = some cl)
    (hl : mapLookup s.authCodes req.code = some info)
    (hx : ¬ now > info.expiresAt)
    (hfail : info.clientID ≠ req.clientID ∨ info.redirectURI ≠ req.redirectURI ∨
        verifyPKCE req.codeVerifier info.codeChallenge info.codeChallengeMethod = false) :
    (∃ d, tokenEndpointServe cfg clients s req now tok =
        (TokenResult.failure "invalid_grant" d 400, s)) ∧
    mapLookup (tokenEndpointServe cfg clients s req now tok).2.authCodes req.code =
      some info := by
  have hget := getAuthCode_found_fresh now req.code s info hl hx
  have hrun : ∃ d, tokenEndpointServe cfg clients s req now tok =
      (TokenResult.failure "invalid_grant" d 400, s) := by
    by_cases h1 : info.clientID = req.clientID
    · by_cases h2 : info.redirectURI = req.redirectURI
      · have hp : verifyPKCE req.codeVerifier info.codeChallenge
            info.codeChallengeMethod = false := by
          rcases hfail with h | h | h
          · exact absurd h1 h
          · exact absurd h2 h
          · exact h
        exact ⟨"PKCE verification failed", by
          simp [tokenEndpointServe, hm, hg, hc, hid, hv, hr, hcl, hget, h1, h2, hp]⟩
      · exact ⟨"redirect_uri mismatch", by
          simp [tokenEndpointServe, hm, hg, hc, hid, hv, hr, hcl, hget, h1, h2]⟩
    · exact ⟨"client_id mismatch", by
        simp [tokenEndpointServe, hm, hg, hc, hid, hv, hr, hcl, hget, h1]⟩
  obtain ⟨d, hd⟩ := hrun
  refine ⟨⟨d, hd⟩, ?_⟩
  rw [hd]
  exact hl

/-- C1 witness: the amended theorem applied at the concrete mismatching
redemption request. -/
theorem c1_code_kept_on_failed_validation_witness :
    (∃ d, tokenEndpointServe cfgEx [("client-a", clientA), ("client-b", clientB)]
        tsEx tokenReqMismatch 500 "fresh-token" =
        (TokenResult.failure "invalid_grant" d 400, tsEx)) ∧
    mapLookup (tokenEndpointServe cfgEx [("client-a", clientA), ("client-b", clientB)]
        tsEx tokenReqMismatch 500 "fresh-token").2.authCodes "code-1" =
      some authCodeInfoEx :=
  c1_code_kept_on_failed_validation cfgEx [("client-a", clientA), ("client-b", clientB)]
    tsEx tokenReqMismatch 500 "fresh-token" clientB authCodeInfoEx rfl rfl
    (by decide) (by decide) (by decide) (by decide) rfl rfl (by decide)
    (Or.inl (by decide))

/-- C3: an authorization code is single-use.  For a fully valid redemption
(code resolves unexpired, `client_id` and `redirect_uri` match, PKCE
verifies) the first request succeeds and returns an access token; the code
is then gone from the store (second conjunct), so a second redemption of
the same code — at any later instant, with the same request — observes it
as not found and fails with `invalid_grant`. -/
theorem c3_authorization_code_single_use
    (cfg : Config) (clients : List (String × OAuthClient))
    (s : InMemoryTokenStorage) (req : TokenRequest) (now now2 : Nat)
    (tok tok2 : String) (cl : OAuthClient) (info : AuthCodeInfo)
    (hm : req.httpMethod = "POST") (hg : req.grantType = "authorization_code")
    (hc : req.code ≠ "") (hid : req.clientID ≠ "") (hv : req.codeVerifier ≠ "")
    (hr : req.redirectURI ≠ "")
    (hcl : getClient clients req.clientID = some cl)
    (hl : mapLookup s.authCodes req.code = some info)
    (hx : ¬ now > info.expiresAt)
    (h1 : info.clientID = req.clientID)
    (h2 : info.redirectURI = req.redirectURI)
    (hp : verifyPKCE req.codeVerifier info.codeChallenge info.codeChallengeMethod
        = true) :
    (tokenEndpointServe cfg clients s req now tok).1 =
      TokenResult.token tok "Bearer" cfg.tokenExpiryDuration info.scope
        (if info.resource ≠ "" then some info.resource else none) ∧
    mapLookup (tokenEndpointServe cfg clients s req now tok).2.authCodes req.code =
      none ∧
    (tokenEndpointServe cfg clients (tokenEndpointServe cfg clients s req now tok).2
        req now2 tok2).1 =
      TokenResult.failure "invalid_grant" "Invalid or expired authorization code" 400 := by
  have hget := getAuthCode_found_fresh now req.code s info hl hx
  have hfst : (tokenEndpointServe cfg clients s req now tok).1 =
      TokenResult.token tok "Bearer" cfg.tokenExpiryDuration info.scope
        (if info.resource ≠ "" then some info.resource else none) := by
    simp [tokenEndpointServe, hm, hg, hc, hid, hv, hr, hcl, hget, h1, h2, hp]
  have hgone : mapLookup (tokenEndpointServe cfg clients s req now tok).2.authCodes
      req.code = none := by
    simp [tokenEndpointServe, hm, hg, hc, hid, hv, hr, hcl, hget, h1, h2, hp,
      storeAccessToken_authCodes, deleteAuthCode_authCodes, mapLookup_mapErase_self]
  refine ⟨hfst, hgone, ?_⟩
  set s3 := (tokenEndpointServe cfg clients s req now tok).2 with hs3
  have h2run := getAuthCode_not_found now2 req.code s3 hgone
  simp [tokenEndpointServe, hm, hg, hc, hid, hv, hr, hcl, h2run]

/-- C3 witness: the single-use theorem applied at the concrete valid
redemption of `code-1` by `client-a` (the PKCE hypothesis is discharged by
the challenge round-trip). -/
theorem c3_authorization_code_single_use_witness :
    (tokenEndpointServe cfgEx [("client-a", clientA)] tsEx tokenReqOk 500
        "fresh-token").1 =
      TokenResult.token "fresh-token" "Bearer" cfgEx.tokenExpiryDuration
        authCodeInfoEx.scope
        (if authCodeInfoEx.resource ≠ "" then some authCodeInfoEx.resource else none) ∧
    mapLookup (tokenEndpointServe cfgEx [("client-a", clientA)] tsEx tokenReqOk 500
        "fresh-token").2.authCodes "code-1" = none ∧
    (tokenEndpointServe cfgEx [("client-a", clientA)]
        (tokenEndpointServe cfgEx [("client-a", clientA)] tsEx tokenReqOk 500
          "fresh-token").2 tokenReqOk 700 "fresh-token-2").1 =
      TokenResult.failure "invalid_grant" "Invalid or expired authorization code" 400 :=
  c3_authorization_code_single_use cfgEx [("client-a", clientA)] tsEx tokenReqOk
    500 700 "fresh-token" "fresh-token-2" clientA authCodeInfoEx rfl rfl
    (by decide) (by decide) (by decide) (by decide) rfl rfl (by decide) rfl rfl
    (verifyPKCE_roundtrip "verifier-string-for-tests-0123456789abcdefgh")

/-- C9 counterexample: a valid registration that leaves
`token_endpoint_auth_method` empty, with public clients allowed, yields a
client whose method DEFAULTS to `"none"` (public) — yet because the secret
is generated before the defaults are applied, the 201 response carries the
plaintext generated secret and the stored record carries its hash. -/
theorem c9_defaulted_public_client_gets_secret :
    (applyDefaults cfgEx regReqDefaultMethod).tokenEndpointAuthMethod = "none" ∧
    registrationServe cfgEx "POST" (some regReqDefaultMethod) "new-client-id"
        "generated-secret" 42 [] =
      (RegistrationResult.created
        { clientID := "new-client-id"
          clientSecret := "generated-secret"
          clientIDIssuedAt := 42
          clientSecretExpiresAt := 0
          metadata := applyDefaults cfgEx regReqDefaultMethod },
       [("new-client-id",
         { clientID := "new-client-id"
           clientSecret := hashSecret "generated-secret"
           metadata := applyDefaults cfgEx regReqDefaultMethod
           createdAt := 42
           expiresAt := none })]) :=
  ⟨rfl, rfl⟩

/-- C9 (amended): when the request EXPLICITLY asks for
`token_endpoint_auth_method` `"none"` (and passes validation with DCR
enabled), the 201 response carries an empty `client_secret` (omitted on the
wire: the field is `omitempty`) and the stored client record holds no
secret. -/
theorem c9_explicit_public_client_secretless
    (cfg : Config) (req : ClientRegistrationRequest) (genID genSecret : String)
    (now : Nat) (store : List (String × OAuthClient))
    (hdcr : cfg.enableDCR = true)
    (hmethod : req.tokenEndpointAuthMethod = "none")
    (hvalid : validateRegistration cfg req = none) :
    registrationServe cfg "POST" (some req) genID genSecret now store =
      (RegistrationResult.created
        { clientID := genID
          clientSecret := ""
          clientIDIssuedAt := now
          clientSecretExpiresAt := 0
          metadata := applyDefaults cfg req },
       mapInsert genID
         { clientID := genID
           clientSecret := ""
           metadata := applyDefaults cfg req
           createdAt := now
           expiresAt := none } store) := by
  simp [registrationServe, hdcr, hvalid, hmethod]

/-- C9 witness: the amended theorem applied at the concrete registration
request that explicitly asks for the `"none"` method. -/
theorem c9_explicit_public_client_secretless_witness :
    registrationServe cfgEx "POST" (some regReqExplicitNone) "new-client-id"
        "generated-secret" 42 [] =
      (RegistrationResult.created
        { clientID := "new-client-id"
          clientSecret := ""
          clientIDIssuedAt := 42
          clientSecretExpiresAt := 0
          metadata := applyDefaults cfgEx regReqExplicitNone },
       mapInsert "new-client-id"
         { clientID := "new-client-id"
           clientSecret := ""
           metadata := applyDefaults cfgEx regReqExplicitNone
           createdAt := 42
           expiresAt := none } []) :=
  c9_explicit_public_client_secretless cfgEx regReqExplicitNone "new-client-id"
    "generated-secret" 42 [] rfl rfl rfl

/-- C10: in the callback handler, when the state resolves but the upstream
code exchange fails (or minting the authorization code fails), the state
store and the token storage are returned unchanged — the
`AuthorizationState` entry is deleted only on the success path, so the same
state key still resolves afterwards. -/
theorem c10_state_kept_unless_success
    (stateStore : List (String × AuthState)) (ts : InMemoryTokenStorage)
    (qCode qState : String) (authState : AuthState)
    (exch : Except String String) (minted : Option String) (now : Nat)
    (hc : qCode ≠ "")
    (hget : stateStoreGet qState stateStore = some authState)
    (hfail : (∃ e, exch = Except.error e) ∨ minted = none) :
    (callbackServe stateStore ts qCode qState "" "" exch minted now).2.1 =
      stateStore ∧
    (callbackServe stateStore ts qCode qState "" "" exch minted now).2.2 = ts ∧
    stateStoreGet qState
        (callbackServe stateStore ts qCode qState "" "" exch minted now).2.1 =
      some authState := by
  have hrun : (callbackServe stateStore ts qCode qState "" "" exch minted now).2 =
      (stateStore, ts) := by
    rcases exch with e | ghTok
    · simp [callbackServe, hc, hget]
    · rcases hfail with ⟨e, he⟩ | hmin
      · exact absurd he (by simp)
      · subst hmin
        simp [callbackServe, hc, hget]
  refine ⟨?_, ?_, ?_⟩
  · rw [hrun]
  · rw [hrun]
  · rw [hrun]
    exact hget

/-- C10 witness: the theorem applied at a concrete callback whose GitHub
code exchange fails. -/
theorem c10_state_kept_unless_success_witness :
    (callbackServe [("state-key", staleAuthState)] tsEx "gh-code" "state-key" "" ""
        (Except.error "exchange failed") (some "minted-code") 700).2.1 =
      [("state-key", staleAuthState)] ∧
    (callbackServe [("state-key", staleAuthState)] tsEx "gh-code" "state-key" "" ""
        (Except.error "exchange failed") (some "minted-code") 700).2.2 = tsEx ∧
    stateStoreGet "state-key"
        (callbackServe [("state-key", staleAuthState)] tsEx "gh-code" "state-key" "" ""
          (Except.error "exchange failed") (some "minted-code") 700).2.1 =
      some staleAuthState :=
  c10_state_kept_unless_success [("state-key", staleAuthState)] tsEx "gh-code"
    "state-key" staleAuthState (Except.error "exchange failed") (some "minted-code")
    700 (by decide) rfl (Or.inl ⟨"exchange failed", rfl⟩)

end OAuthServer
